import Mathlib

/-!
Verification development for the external-process orchestration and
document-streaming subsystem of `src/xpmir/interfaces/anserini.py`.

The embedding models:
* the three log-line regular expressions `RE_FILES`, `RE_FILE`,
  `RE_COMPLETE` and the stdout-draining loop of
  `IndexCollection.execute.run` (lines as lists of characters; the child
  emits bytes, modelled here as characters);
* the exit-status resolution at the end of `run`;
* the `StreamGenerator` context manager as a two-thread interleaving
  model (main thread runs `__exit__`, worker thread runs `run`);
* the `csv_collection` producer `_generator` (strip, split on the
  separator, JSON serialisation, newline-terminated records);
* the capability dispatcher `Handler` (its class lives in `xpmir.utils`,
  outside the sources at hand, so it is modelled from the spec).

Python runtime errors that the modelled code can raise are explicit
`Except` results.
-/

/-- A line of child stdout / a line of the source file. -/
abbrev Line := List Char

instance {ε α : Type} [DecidableEq ε] [DecidableEq α] : DecidableEq (Except ε α) :=
  fun a b =>
    match a, b with
    | .ok x, .ok y =>
      if h : x = y then isTrue (by rw [h]) else isFalse (by intro hh; cases hh; exact h rfl)
    | .error x, .error y =>
      if h : x = y then isTrue (by rw [h]) else isFalse (by intro hh; cases hh; exact h rfl)
    | .ok _, .error _ => isFalse (by intro hh; cases hh)
    | .error _, .ok _ => isFalse (by intro hh; cases hh)

/-- The Python exceptions the modelled fragments can raise:
`ValueError` (from `int("")` or from unpacking a 1-element split) and
`ZeroDivisionError` (from `x / 0` on ints). -/
inductive PyErr where
  | valueError
  | zeroDivisionError
deriving DecidableEq

/-! ### The three log-line patterns

`RE_FILES`, `RE_FILE` and `RE_COMPLETE` are implemented as direct
recognisers.  Each regex has the shape `.*` followed by a sequence of
literal fragments, single wildcards (`.`, any character but a newline),
and greedy character-class runs (`\d+`, `[\d,]+`).  In every pattern the
character following a class run can never belong to the class, so the
greedy maximal run is the unique viable one; the leading greedy `.*` is
implemented by trying later start positions first (Python's backtracking
order), which also fixes the captured group when several starts match. -/

/-- Consume a literal regex fragment at the head of the input. -/
def stripLitP (lit s : Line) : Option Line :=
  if lit.isPrefixOf s then some (s.drop lit.length) else none

/-- Consume one character, as the regex wildcard `.` does: any character
except a newline. -/
def anyNN : Line → Option Line
  | [] => none
  | c :: rest => if c = '\n' then none else some rest

/-- Consume a nonempty maximal run of characters satisfying `p`
(the greedy `p+`). Returns the run and the remaining input. -/
def plusRun (p : Char → Bool) (s : Line) : Option (Line × Line) :=
  let run := s.takeWhile p
  if run.isEmpty then none else some (run, s.dropWhile p)

/-- A leading greedy `.*` in front of `tail`: try later start positions
first (greedy backtracking order); `.` does not cross a newline. -/
def searchLast {α : Type} (tail : Line → Option α) : Line → Option α
  | [] => tail []
  | c :: rest =>
    if c = '\n' then tail (c :: rest)
    else (searchLast tail rest).orElse (fun _ => tail (c :: rest))

/-- Suffix of `RE_FILES` after the leading `.*`:
`index\.IndexCollection \(IndexCollection.java:\d+\) - ([\d,]+) files found`
(the dot in `IndexCollection.java` is an unescaped wildcard).
Returns the captured `[\d,]+` group. -/
def filesTailM (s : Line) : Option Line := do
  let s ← stripLitP "index.IndexCollection (IndexCollection".data s
  let s ← anyNN s
  let s ← stripLitP "java:".data s
  let (_, s) ← plusRun Char.isDigit s
  let s ← stripLitP ") - ".data s
  let (cap, s) ← plusRun (fun c => c.isDigit || c = ',') s
  let _ ← stripLitP " files found".data s
  pure cap

/-- `RE_FILES.match(data)`, returning the captured group when it matches. -/
def reFiles (data : Line) : Option Line := searchLast filesTailM data

/-- Suffix of `RE_FILE` after the leading `.*`:
`index\.IndexCollection\$LocalIndexerThread \(IndexCollection.java:\d+\).* docs added.` -/
def fileTailM (s : Line) : Option Unit := do
  let s ← stripLitP "index.IndexCollection$LocalIndexerThread (IndexCollection".data s
  let s ← anyNN s
  let s ← stripLitP "java:".data s
  let (_, s) ← plusRun Char.isDigit s
  let s ← stripLitP ")".data s
  searchLast (fun t => do
      let t ← stripLitP " docs added".data t
      let _ ← anyNN t
      pure ()) s

/-- `RE_FILE.match(data) is not None`. -/
def reFile (data : Line) : Bool := (searchLast fileTailM data).isSome

/-- Suffix of `RE_COMPLETE` after the leading `.*`:
`IndexCollection\.java.*Indexing Complete.*documents indexed`. -/
def completeTailM (s : Line) : Option Unit := do
  let s ← stripLitP "IndexCollection.java".data s
  searchLast (fun t => do
      let t ← stripLitP "Indexing Complete".data t
      searchLast (fun u => do
          let _ ← stripLitP "documents indexed".data u
          pure ()) t) s

/-- `RE_COMPLETE.match(data) is not None`. -/
def reComplete (data : Line) : Bool := (searchLast completeTailM data).isSome

/-! ### The supervisor loop of `IndexCollection.execute.run` -/

/-- Digit-string to number, as Python `int` does on a digit string. -/
def digitsToNat (ds : Line) : Nat :=
  ds.foldl (fun n c => 10 * n + (c.toNat - '0'.toNat)) 0

/-- `int(m.group(1).decode("utf-8").replace(",", ""))`: drop the commas
the `[\d,]+` capture may contain, then parse; `int("")` raises
`ValueError`. -/
def pyIntCap (cap : Line) : Except PyErr Int :=
  let ds := cap.filter (fun c => c != ',')
  if ds.isEmpty then .error .valueError else .ok (digitsToNat ds)

/-- The mutable state of the stdout-draining loop, together with its
observable outputs: `echoed` records the verbatim
`sys.stdout.write(data)` pass-throughs, `prints` the
`print("%d files to index" % nfiles)` informational lines, and
`progressCalls` the values passed to the external `progress` sink. -/
structure SupState where
  nfiles : Int
  indexedfiles : Nat
  complete : Bool
  echoed : List Line
  prints : List Int
  progressCalls : List ℚ
deriving DecidableEq

/-- One iteration of the `while True` loop body for a line `data`:
```
m = RE_FILES.match(data)
complete = complete or (RE_COMPLETE.match(data) is not None)
if m:
    nfiles = int(m.group(1).decode("utf-8").replace(",", ""))
    print("%d files to index" % nfiles)
elif RE_FILE.match(data):
    indexedfiles += 1
    progress(indexedfiles / nfiles)
else:
    sys.stdout.write(data.decode("utf-8"))
```
`progress(indexedfiles / nfiles)` is Python true division of ints,
modelled in `ℚ`; it raises `ZeroDivisionError` when `nfiles = 0`. -/
def superStep (st : SupState) (data : Line) : Except PyErr SupState :=
  let m := reFiles data
  let complete2 := st.complete || reComplete data
  match m with
  | some cap => do
    let n ← pyIntCap cap
    pure { st with complete := complete2, nfiles := n,
                   prints := st.prints ++ [n] }
  | none =>
    if reFile data then
      if st.nfiles = 0 then .error .zeroDivisionError
      else
        pure { st with complete := complete2,
                       indexedfiles := st.indexedfiles + 1,
                       progressCalls := st.progressCalls ++
                         [((st.indexedfiles : ℚ) + 1) / (st.nfiles : ℚ)] }
    else pure { st with complete := complete2, echoed := st.echoed ++ [data] }

/-- Loop state before the first line: `nfiles = -1`, `indexedfiles = 0`,
`complete = False`. -/
def initSup : SupState :=
  { nfiles := -1, indexedfiles := 0, complete := false,
    echoed := [], prints := [], progressCalls := [] }

/-- Drain the given stdout lines through the loop body. -/
def superRun (st : SupState) (lines : List Line) : Except PyErr SupState :=
  List.foldlM superStep st lines

/-- The supervisor end-to-end: drain the lines, then resolve the final
exit status from the child's return code `rc`:
```
if proc.returncode == 0 and not complete:
    logging.error(...)
    sys.exit(1)
sys.exit(proc.returncode)
``` -/
def superExit (lines : List Line) (rc : Int) : Except PyErr Int :=
  (superRun initSup lines).bind fun st =>
    if rc = 0 ∧ st.complete = false then .ok 1 else .ok rc

/-! Concrete sample log lines, used by witnesses and counterexamples. -/

/-- A line matched by `RE_FILES` only, carrying the total `1`. -/
def demoFilesLine1 : Line :=
  "index.IndexCollection (IndexCollection.java:123) - 1 files found\n".data

/-- A line matched by `RE_FILES` only, carrying the total `100`. -/
def demoFilesLine100 : Line :=
  "index.IndexCollection (IndexCollection.java:123) - 100 files found\n".data

/-- A line matched by `RE_FILE` only. -/
def demoDocsLine : Line :=
  "index.IndexCollection$LocalIndexerThread (IndexCollection.java:5) t5 100 docs added.\n".data

/-- A line matched by `RE_COMPLETE` only. -/
def demoCompleteLine : Line :=
  "x IndexCollection.java - Indexing Complete: 10 documents indexed\n".data

/-- A line matching none of the three patterns. -/
def demoPlainLine : Line := "hello world\n".data

example : reFiles demoFilesLine1 = some ['1'] := by decide
example : reFiles demoFilesLine100 = some ['1', '0', '0'] := by decide
example : reFile demoFilesLine1 = false := by decide
example : reComplete demoFilesLine1 = false := by decide
example : reFile demoDocsLine = true := by decide
example : reFiles demoDocsLine = none := by decide
example : reComplete demoDocsLine = false := by decide
example : reComplete demoCompleteLine = true := by decide
example : reFiles demoCompleteLine = none := by decide
example : reFile demoCompleteLine = false := by decide
example : reFiles demoPlainLine = none := by decide
example : reFile demoPlainLine = false := by decide
example : reComplete demoPlainLine = false := by decide

/-! ### Case lemmas for one loop iteration -/

lemma superStep_files (st : SupState) (d : Line) (cap : Line) (n : Int)
    (hm : reFiles d = some cap) (hn : pyIntCap cap = .ok n) :
    superStep st d = .ok { st with complete := st.complete || reComplete d,
                                   nfiles := n, prints := st.prints ++ [n] } := by
  simp [superStep, hm, hn]

lemma superStep_docs (st : SupState) (d : Line)
    (hm : reFiles d = none) (hf : reFile d = true) (hz : st.nfiles ≠ 0) :
    superStep st d = .ok { st with complete := st.complete || reComplete d,
                                   indexedfiles := st.indexedfiles + 1,
                                   progressCalls := st.progressCalls ++
                                     [((st.indexedfiles : ℚ) + 1) / (st.nfiles : ℚ)] } := by
  simp [superStep, hm, hf, hz, pure, Except.pure]

lemma superStep_echo (st : SupState) (d : Line)
    (hm : reFiles d = none) (hf : reFile d = false) :
    superStep st d = .ok { st with complete := st.complete || reComplete d,
                                   echoed := st.echoed ++ [d] } := by
  simp [superStep, hm, hf, pure, Except.pure]

lemma superStep_mono {st st2 : SupState} {d : Line}
    (h : superStep st d = .ok st2) : st.indexedfiles ≤ st2.indexedfiles := by
  cases hm : reFiles d with
  | some cap =>
    cases hn : pyIntCap cap with
    | error e => simp [superStep, hm, hn, Bind.bind, Except.bind] at h
    | ok n =>
      simp only [superStep, hm, hn, Bind.bind, Except.bind, pure, Except.pure,
        Except.ok.injEq] at h
      rw [← h]
  | none =>
    by_cases hf : reFile d = true
    · by_cases hz : st.nfiles = 0
      · simp [superStep, hm, hf, hz] at h
      · simp only [superStep, hm, hf, hz, if_true, if_false, ite_true, ite_false,
          pure, Except.pure, Except.ok.injEq] at h
        rw [← h]
        exact Nat.le_succ _
    · simp only [Bool.not_eq_true] at hf
      simp only [superStep, hm, hf, Bool.false_eq_true, if_false, ite_false,
        pure, Except.pure, Except.ok.injEq] at h
      rw [← h]

lemma superStep_nfiles {st st2 : SupState} {d : Line}
    (hm : reFiles d = none) (h : superStep st d = .ok st2) :
    st2.nfiles = st.nfiles := by
  by_cases hf : reFile d = true
  · by_cases hz : st.nfiles = 0
    · simp [superStep, hm, hf, hz] at h
    · simp only [superStep, hm, hf, hz, if_true, if_false, ite_true, ite_false,
        pure, Except.pure, Except.ok.injEq] at h
      rw [← h]
  · simp only [Bool.not_eq_true] at hf
    simp only [superStep, hm, hf, Bool.false_eq_true, if_false, ite_false,
      pure, Except.pure, Except.ok.injEq] at h
    rw [← h]

/-! ### Lemmas about draining a whole line sequence -/

lemma superRun_mono : ∀ (lines : List Line) (st st2 : SupState),
    superRun st lines = .ok st2 → st.indexedfiles ≤ st2.indexedfiles := by
  intro lines
  induction lines with
  | nil =>
    intro st st2 h
    simp only [superRun, List.foldlM_nil, pure, Except.pure, Except.ok.injEq] at h
    rw [h]
  | cons d ls ih =>
    intro st st2 h
    rw [superRun, List.foldlM_cons] at h
    cases hs : superStep st d with
    | error e => rw [hs] at h; simp [Bind.bind, Except.bind] at h
    | ok st1 =>
      rw [hs] at h
      simp only [Bind.bind, Except.bind] at h
      exact le_trans (superStep_mono hs) (ih st1 st2 h)

lemma superRun_nfiles : ∀ (lines : List Line) (st st2 : SupState),
    (∀ l ∈ lines, reFiles l = none) → superRun st lines = .ok st2 →
    st2.nfiles = st.nfiles := by
  intro lines
  induction lines with
  | nil =>
    intro st st2 _ h
    simp only [superRun, List.foldlM_nil, pure, Except.pure, Except.ok.injEq] at h
    rw [h]
  | cons d ls ih =>
    intro st st2 hnone h
    rw [superRun, List.foldlM_cons] at h
    cases hs : superStep st d with
    | error e => rw [hs] at h; simp [Bind.bind, Except.bind] at h
    | ok st1 =>
      rw [hs] at h
      simp only [Bind.bind, Except.bind] at h
      have h1 : st1.nfiles = st.nfiles :=
        superStep_nfiles (hnone d (List.mem_cons_self d ls)) hs
      have h2 : st2.nfiles = st1.nfiles :=
        ih st1 st2 (fun l hl => hnone l (List.mem_cons_of_mem d hl)) h
      rw [h2, h1]

lemma superStep_cases {st st2 : SupState} {d : Line}
    (h : superStep st d = .ok st2) :
    (∃ cap n, reFiles d = some cap ∧ pyIntCap cap = .ok n ∧
       st2 = { st with complete := st.complete || reComplete d, nfiles := n,
                       prints := st.prints ++ [n] }) ∨
    (reFiles d = none ∧ reFile d = true ∧ st.nfiles ≠ 0 ∧
       st2 = { st with complete := st.complete || reComplete d,
                       indexedfiles := st.indexedfiles + 1,
                       progressCalls := st.progressCalls ++
                         [((st.indexedfiles : ℚ) + 1) / (st.nfiles : ℚ)] }) ∨
    (reFiles d = none ∧ reFile d = false ∧
       st2 = { st with complete := st.complete || reComplete d,
                       echoed := st.echoed ++ [d] }) := by
  cases hm : reFiles d with
  | some cap =>
    cases hn : pyIntCap cap with
    | error e => simp [superStep, hm, hn, Bind.bind, Except.bind] at h
    | ok n =>
      left
      refine ⟨cap, n, rfl, hn, ?_⟩
      simp only [superStep, hm, hn, Bind.bind, Except.bind, pure, Except.pure,
        Except.ok.injEq] at h
      rw [← h]
  | none =>
    by_cases hf : reFile d = true
    · by_cases hz : st.nfiles = 0
      · simp [superStep, hm, hf, hz] at h
      · right; left
        refine ⟨rfl, hf, hz, ?_⟩
        simp only [superStep, hm, hf, hz, if_true, if_false, ite_true, ite_false,
          pure, Except.pure, Except.ok.injEq] at h
        rw [← h]
    · simp only [Bool.not_eq_true] at hf
      right; right
      refine ⟨rfl, hf, ?_⟩
      simp only [superStep, hm, hf, Bool.false_eq_true, if_false, ite_false,
        pure, Except.pure, Except.ok.injEq] at h
      rw [← h]

/-! ### Claim C1 — exit-status resolution -/

/-- C1: for every supervised index run, if the child exits 0 but the
completion marker was never observed, the supervisor exits 1; in every
other case (non-zero exit, or exit 0 with the marker seen) the child's
exit code is propagated unchanged — in particular exit code 137 with the
marker seen resolves to 137. -/
theorem c1_exit_status_resolution (lines : List Line) (rc : Int) (st : SupState)
    (h : superRun initSup lines = .ok st) :
    (rc = 0 → st.complete = false → superExit lines rc = .ok 1) ∧
    ((rc ≠ 0 ∨ st.complete = true) → superExit lines rc = .ok rc) ∧
    (st.complete = true → superExit lines 137 = .ok 137) := by
  unfold superExit
  rw [h]
  simp only [Except.bind]
  refine ⟨fun h0 hc => ?_, fun hor => ?_, fun hc => ?_⟩
  · rw [if_pos ⟨h0, hc⟩]
  · rcases hor with h0 | hc
    · rw [if_neg (fun hh => h0 hh.1)]
    · rw [if_neg (fun hh => by rw [hc] at hh; exact absurd hh.2 (by simp))]
  · rw [if_neg (fun hh => by rw [hc] at hh; exact absurd hh.2 (by simp))]

/-- Witness for C1: a stream containing the completion line, with child
exit code 137, resolves to 137. -/
theorem c1_exit_status_resolution_witness :
    superExit [demoCompleteLine] 137 = .ok 137 :=
  (c1_exit_status_resolution [demoCompleteLine] 137
    { nfiles := -1, indexedfiles := 0, complete := true,
      echoed := [demoCompleteLine], prints := [], progressCalls := [] }
    (by decide)).2.2 (by decide)

/-! ### Claim C4 — progress counter invariants -/

/-- C4 counterexample: after a total-count line reporting `1`, two
docs-added lines drive `indexedfiles` to `2`, exceeding the known total
`1` — the code never caps the counter at the total. -/
theorem c4_counterexample :
    (superRun initSup [demoFilesLine1, demoDocsLine, demoDocsLine]).map
        (fun st => (st.nfiles, st.indexedfiles)) = .ok (1, 2) ∧
    ¬ ((2 : Int) ≤ (1 : Int)) := ⟨by decide, by decide⟩

/-- C4 (amended): the completed-units counter is non-decreasing across
any drained sequence, but the code enforces no upper bound at the known
total — a run exists (total-count line reporting 1, then two docs-added
lines) in which the counter strictly exceeds the reported total. -/
theorem c4_completed_units_monotone :
    (∀ (st st2 : SupState) (lines : List Line),
        superRun st lines = .ok st2 → st.indexedfiles ≤ st2.indexedfiles) ∧
    (superRun initSup [demoFilesLine1, demoDocsLine, demoDocsLine]).map
        (fun st => (st.nfiles, st.indexedfiles)) = .ok (1, 2) :=
  ⟨fun st st2 lines h => superRun_mono lines st st2 h, by decide⟩

/-- Witness for C4 (amended): the monotonicity part at a concrete run. -/
theorem c4_completed_units_monotone_witness :
    initSup.indexedfiles ≤
      ({ nfiles := 1, indexedfiles := 0, complete := false, echoed := [],
         prints := [1], progressCalls := [] } : SupState).indexedfiles :=
  c4_completed_units_monotone.1 initSup
    { nfiles := 1, indexedfiles := 0, complete := false, echoed := [],
      prints := [1], progressCalls := [] } [demoFilesLine1] (by decide)

/-! ### Claim C5 — per-unit line before any total-count line -/

/-- C5 counterexample: a docs-added line processed before any
total-count line increments the counter but also *emits* a progress
report (value `1 / -1 = -1`), contradicting the claim that the update is
deferred with no progress emitted. -/
theorem c5_counterexample :
    (superRun initSup [demoDocsLine]).map
        (fun st => (st.indexedfiles, st.progressCalls)) = .ok (1, [(-1 : ℚ)]) ∧
    [(-1 : ℚ)] ≠ ([] : List ℚ) := by
  refine ⟨?_, by decide⟩
  have h1 := superStep_docs initSup demoDocsLine (by decide) (by decide) (by decide)
  rw [superRun, List.foldlM_cons, h1]
  simp only [List.foldlM_nil, Bind.bind, Except.bind, pure, Except.pure, Except.map]
  norm_num [initSup]

/-- C5 (amended): a per-unit line seen while no total-count line has yet
been drained increments the counter and does not crash, but a progress
report *is* emitted, carrying the bogus negative value
`(completedUnits) / (-1)` (the total is initialised to `-1`, not treated
as unknown). -/
theorem c5_per_unit_before_total (lines : List Line) (st : SupState) (d : Line)
    (hnone : ∀ l ∈ lines, reFiles l = none)
    (hrun : superRun initSup lines = .ok st)
    (hm : reFiles d = none) (hf : reFile d = true) :
    superStep st d = .ok { st with complete := st.complete || reComplete d,
                                   indexedfiles := st.indexedfiles + 1,
                                   progressCalls := st.progressCalls ++
                                     [((st.indexedfiles : ℚ) + 1) / ((-1 : Int) : ℚ)] } ∧
    ((st.indexedfiles : ℚ) + 1) / ((-1 : Int) : ℚ) < 0 := by
  have hn : st.nfiles = -1 := by
    have h2 := superRun_nfiles lines initSup st hnone hrun
    simpa [initSup] using h2
  constructor
  · have hstep := superStep_docs st d hm hf (by rw [hn]; decide)
    rw [show ((-1 : Int) : ℚ) = (st.nfiles : ℚ) from by rw [hn]]
    exact hstep
  · have hp : (0 : ℚ) < (st.indexedfiles : ℚ) + 1 := by positivity
    have hneg : ((-1 : Int) : ℚ) < 0 := by norm_num
    exact div_neg_of_pos_of_neg hp hneg

/-- Witness for C5 (amended) at a concrete docs-added line. -/
theorem c5_per_unit_before_total_witness :
    superStep initSup demoDocsLine =
      .ok { initSup with complete := initSup.complete || reComplete demoDocsLine,
                         indexedfiles := initSup.indexedfiles + 1,
                         progressCalls := initSup.progressCalls ++
                           [((initSup.indexedfiles : ℚ) + 1) / ((-1 : Int) : ℚ)] } ∧
    ((initSup.indexedfiles : ℚ) + 1) / ((-1 : Int) : ℚ) < 0 :=
  c5_per_unit_before_total [] initSup demoDocsLine (by simp) (by rfl) (by decide) (by decide)

/-! ### Claim C6 — total-count line handling -/

/-- C6 counterexample: a total-count line carrying `100` sets the total
but emits *no* progress report at all (the progress-call list stays
empty; only the informational print happens), contradicting the claimed
`0/100` report to the progress sink. -/
theorem c6_counterexample :
    (superRun initSup [demoFilesLine100]).map
        (fun st => (st.nfiles, st.progressCalls, st.prints)) = .ok (100, [], [100]) ∧
    ((0 : ℚ) / (100 : ℚ)) ∉ ([] : List ℚ) := ⟨by decide, by simp⟩

/-- C6 (amended): a total-count line carrying the integer `n` sets the
total-units value to `n` and prints an informational line to standard
output, but emits no report to the progress sink. -/
theorem c6_total_count_line (st : SupState) (d : Line) (cap : Line) (n : Int)
    (hm : reFiles d = some cap) (hn : pyIntCap cap = .ok n) :
    superStep st d = .ok { st with complete := st.complete || reComplete d,
                                   nfiles := n, prints := st.prints ++ [n] } ∧
    (∀ st2, superStep st d = .ok st2 → st2.progressCalls = st.progressCalls) := by
  have h1 := superStep_files st d cap n hm hn
  refine ⟨h1, fun st2 h2 => ?_⟩
  rw [h1] at h2
  injection h2 with h3
  rw [← h3]

/-- Witness for C6 (amended) at a concrete total-count line. -/
theorem c6_total_count_line_witness :
    superStep initSup demoFilesLine100 =
      .ok { initSup with complete := initSup.complete || reComplete demoFilesLine100,
                         nfiles := 100, prints := initSup.prints ++ [100] } :=
  (c6_total_count_line initSup demoFilesLine100 ['1', '0', '0'] 100
    (by decide) (by decide)).1

/-! ### Claim C7 — line classification and pass-through -/

/-- C7 counterexample: a line matching (only) the completion pattern is
echoed verbatim to the parent's standard output *and* classified
(it sets the completion flag) — the completion check is not part of the
first-match-wins chain, so "a line matching any pattern is not echoed"
fails. -/
theorem c7_counterexample :
    reComplete demoCompleteLine = true ∧
    (superRun initSup [demoCompleteLine]).map
        (fun st => (st.complete, st.echoed)) = .ok (true, [demoCompleteLine]) :=
  ⟨by decide, by decide⟩

/-- C7 (amended): the total-count and per-unit classifications are
applied in order with first match winning, and exactly the lines
matching neither of those two are passed through verbatim; the
completion check is applied to every line independently of that chain
(so completion-only lines are also echoed). -/
theorem c7_line_classification (st : SupState) (d : Line) :
    (reFiles d = none → reFile d = false →
      superStep st d = .ok { st with complete := st.complete || reComplete d,
                                     echoed := st.echoed ++ [d] }) ∧
    (reFiles d ≠ none → ∀ st2, superStep st d = .ok st2 →
      st2.echoed = st.echoed ∧ st2.indexedfiles = st.indexedfiles) ∧
    (reFiles d = none → reFile d = true → ∀ st2, superStep st d = .ok st2 →
      st2.echoed = st.echoed ∧ st2.nfiles = st.nfiles) ∧
    (∀ st2, superStep st d = .ok st2 → st2.complete = (st.complete || reComplete d)) := by
  refine ⟨fun hm hf => superStep_echo st d hm hf,
          fun hm st2 h2 => ?_, fun hm hf st2 h2 => ?_, fun st2 h2 => ?_⟩
  · rcases superStep_cases h2 with ⟨cap, n, hm2, hn2, hrec⟩ | ⟨hm2, _, _, hrec⟩ |
      ⟨hm2, _, hrec⟩
    · rw [hrec]; exact ⟨rfl, rfl⟩
    · exact absurd hm2 hm
    · exact absurd hm2 hm
  · rcases superStep_cases h2 with ⟨cap, n, hm2, hn2, hrec⟩ | ⟨hm2, hf2, hz2, hrec⟩ |
      ⟨hm2, hf2, hrec⟩
    · rw [hm] at hm2; exact Option.noConfusion hm2
    · rw [hrec]; exact ⟨rfl, rfl⟩
    · rw [hf] at hf2; exact Bool.noConfusion hf2
  · rcases superStep_cases h2 with ⟨cap, n, hm2, hn2, hrec⟩ | ⟨hm2, hf2, hz2, hrec⟩ |
      ⟨hm2, hf2, hrec⟩ <;> rw [hrec]

/-- Witness for C7 (amended): an unclassified line is echoed verbatim. -/
theorem c7_line_classification_witness :
    superStep initSup demoPlainLine =
      .ok { initSup with complete := initSup.complete || reComplete demoPlainLine,
                         echoed := initSup.echoed ++ [demoPlainLine] } :=
  (c7_line_classification initSup demoPlainLine).1 (by decide) (by decide)

/-! ### `StreamGenerator` — two-thread model of the scoped lifetime

`StreamGenerator` extends `threading.Thread`.  `__init__` creates a
fresh temporary directory containing a fifo (`tempfile.mkdtemp` +
`os.mkfifo`); `__enter__` calls `start()`; the started thread executes
`run()`, i.e. `with self.filepath.open(self.mode) as out:
self.generator(out)`; `__exit__` executes `self.join()`,
`self.filepath.unlink()`, `self.filepath.parent.rmdir()`.

The model is a small-step interleaving of the two threads over a shared
filesystem state.  Python semantics captured:
* `join()` blocks until `run()` has finished;
* an exception raised by the generator inside `run()` closes the sink
  (the `with` block), is caught by `Thread._bootstrap_inner` and
  printed, and is *not* re-raised by `join()` — modelled by
  `excSwallowed`;
* `unlink` on a missing file and `rmdir` on a non-empty directory would
  raise in the main thread — modelled by `mainExc` and the aborted
  program counter value 4 (the invariant shows these never happen). -/

/-- Shared configuration: `mpc` is the main thread's position inside
`__exit__` (0 at `join`, 1 at `unlink`, 2 at `rmdir`, 3 done,
4 aborted by an exception), `wpc` the worker's position inside `run()`
(0 about to open the fifo, 1 running the generator, 2 finished). -/
structure SGConfig where
  mpc : Fin 5
  wpc : Fin 3
  fifoExists : Bool
  dirExists : Bool
  excSwallowed : Bool
  mainExc : Bool
deriving DecidableEq, Fintype

/-- One interleaving step: `worker = true` advances the producer thread,
`worker = false` advances the main thread's `__exit__`; a blocked or
finished thread leaves the configuration unchanged.  `pfail` says
whether the generator raises partway. -/
def sgStep (pfail : Bool) (c : SGConfig) (worker : Bool) : SGConfig :=
  if worker then
    if c.wpc = 0 then { c with wpc := 1 }
    else if c.wpc = 1 then { c with wpc := 2, excSwallowed := c.excSwallowed || pfail }
    else c
  else
    if c.mpc = 0 then (if c.wpc = 2 then { c with mpc := 1 } else c)
    else if c.mpc = 1 then
      (if c.fifoExists then { c with mpc := 2, fifoExists := false }
       else { c with mpc := 4, mainExc := true })
    else if c.mpc = 2 then
      (if c.fifoExists then { c with mpc := 4, mainExc := true }
       else { c with mpc := 3, dirExists := false })
    else c

/-- Configuration right after `__init__` and `__enter__`: the directory
and the fifo exist, the worker is about to run, the main thread is at
`join()` (nothing in the scope body touches the channel). -/
def sgInit : SGConfig :=
  { mpc := 0, wpc := 0, fifoExists := true, dirExists := true,
    excSwallowed := false, mainExc := false }

/-- Run a whole interleaving schedule from the initial configuration. -/
def sgRun (pfail : Bool) (sched : List Bool) : SGConfig :=
  sched.foldl (sgStep pfail) sgInit

/-- Inductive invariant of the scoped lifetime. -/
def sgInv (pfail : Bool) (c : SGConfig) : Prop :=
  c.wpc ≤ 2 ∧ c.mpc ≤ 3 ∧ (1 ≤ c.mpc → c.wpc = 2) ∧
  (c.fifoExists = true ↔ c.mpc ≤ 1) ∧ (c.dirExists = true ↔ c.mpc ≤ 2) ∧
  c.mainExc = false ∧ (c.wpc ≤ 1 → c.excSwallowed = false) ∧
  (c.wpc = 2 → c.excSwallowed = pfail)

instance (pfail : Bool) (c : SGConfig) : Decidable (sgInv pfail c) := by
  unfold sgInv; infer_instance

set_option maxRecDepth 100000 in
lemma sgStep_inv : ∀ (pfail : Bool) (c : SGConfig) (w : Bool),
    sgInv pfail c → sgInv pfail (sgStep pfail c w) := by decide

lemma sgRun_inv (pfail : Bool) (sched : List Bool) : sgInv pfail (sgRun pfail sched) := by
  rw [sgRun]
  have hgen : ∀ c, sgInv pfail c → sgInv pfail (sched.foldl (sgStep pfail) c) := by
    induction sched with
    | nil => intro c hc; exact hc
    | cons w ws ih => intro c hc; exact ih _ (sgStep_inv pfail c w hc)
  exact hgen sgInit (by cases pfail <;> decide)

/-! ### Claim C2 — channel lifecycle -/

/-- C2: for every Stream Generator run — producer returning normally or
raising — and every interleaving: the fifo exists throughout the scoped
lifetime (any configuration before the exit's unlink), the fifo (and the
directory) can only be gone after the producer thread has fully
finished, and when the scoped exit has completed, both the fifo and its
temporary directory have been removed. -/
theorem c2_stream_generator_lifecycle (pfail : Bool) (sched : List Bool) :
    ((sgRun pfail sched).mpc ≤ 1 → (sgRun pfail sched).fifoExists = true) ∧
    ((sgRun pfail sched).fifoExists = false → (sgRun pfail sched).wpc = 2) ∧
    ((sgRun pfail sched).dirExists = false → (sgRun pfail sched).wpc = 2) ∧
    ((sgRun pfail sched).mpc = 3 →
      (sgRun pfail sched).fifoExists = false ∧ (sgRun pfail sched).dirExists = false) := by
  obtain ⟨h1, h2, h3, h4, h5, h6, h7, h8⟩ := sgRun_inv pfail sched
  refine ⟨fun hm => h4.mpr hm, fun hf => ?_, fun hd => ?_, fun hm => ⟨?_, ?_⟩⟩
  · refine h3 (le_of_lt (not_le.mp fun hle => ?_))
    have ht := h4.mpr hle
    rw [hf] at ht
    exact Bool.noConfusion ht
  · refine h3 (le_of_lt ?_)
    have hlt : ¬ (sgRun pfail sched).mpc ≤ 2 := fun hle => by
      have ht := h5.mpr hle
      rw [hd] at ht
      exact Bool.noConfusion ht
    have h21 : (1 : Fin 5) ≤ 2 := by decide
    exact lt_of_le_of_lt h21 (not_le.mp hlt)
  · cases hfe : (sgRun pfail sched).fifoExists
    · rfl
    · exfalso
      have ht := h4.mp hfe
      rw [hm] at ht
      exact absurd ht (by decide)
  · cases hde : (sgRun pfail sched).dirExists
    · rfl
    · exfalso
      have ht := h5.mp hde
      rw [hm] at ht
      exact absurd ht (by decide)

/-- Witness for C2: the sequential schedule (producer runs to the end,
then the exit joins, unlinks and removes the directory) ends with both
filesystem entries gone. -/
theorem c2_stream_generator_lifecycle_witness :
    (sgRun false [true, true, false, false, false]).fifoExists = false ∧
    (sgRun false [true, true, false, false, false]).dirExists = false :=
  (c2_stream_generator_lifecycle false [true, true, false, false, false]).2.2.2 (by decide)

/-! ### Claim C3 — producer errors and the scoped release -/

/-- C3 counterexample: with a raising producer and the sequential
schedule, the producer's exception is swallowed by the thread machinery
(`excSwallowed = true`) while the scoped exit completes normally
(`mpc = 3`, no exception in the main thread, channel cleaned up) — the
owning scope never observes the failure, refuting the claim that the
error propagates out of the scoped release. -/
theorem c3_counterexample :
    (sgRun true [true, true, false, false, false]).excSwallowed = true ∧
    (sgRun true [true, true, false, false, false]).mainExc = false ∧
    (sgRun true [true, true, false, false, false]).mpc = 3 ∧
    (sgRun true [true, true, false, false, false]).fifoExists = false := by decide

/-- C3 (amended): a producer error never propagates out of the scoped
release: the exception is caught and printed inside the thread machinery
(recorded by `excSwallowed` exactly when the producer failed), `join()`
returns normally, and no exception ever escapes the main thread's
`__exit__` — a failed producer yields a scope exit that looks successful
with a truncated channel. -/
theorem c3_producer_error_swallowed (pfail : Bool) (sched : List Bool) :
    (sgRun pfail sched).mainExc = false ∧
    ((sgRun pfail sched).wpc = 2 → (sgRun pfail sched).excSwallowed = pfail) := by
  obtain ⟨h1, h2, h3, h4, h5, h6, h7, h8⟩ := sgRun_inv pfail sched
  exact ⟨h6, h8⟩

/-- Witness for C3 (amended): with a failing producer that has finished,
the swallowed-exception flag is set. -/
theorem c3_producer_error_swallowed_witness :
    (sgRun true [true, true, false, false, false]).excSwallowed = true :=
  (c3_producer_error_swallowed true [true, true, false, false, false]).2 (by decide)

/-! ### The `csv_collection` producer `_generator` -/

/-- The whitespace characters `str.strip()` removes (ASCII range; the
source file is read as text, modelled over characters). -/
def isPySpace (c : Char) : Bool :=
  c = ' ' || c = '\t' || c = '\n' || c = '\r' || c = '\x0b' || c = '\x0c'

/-- Python `line.strip()`: drop leading and trailing whitespace. -/
def pyStrip (s : Line) : Line :=
  ((s.dropWhile isPySpace).reverse.dropWhile isPySpace).reverse

/-- Python `s.split(sep, 1)` for a nonempty separator, restricted to
the case the source needs: `some (before, after)` split at the *first*
occurrence of `sep`, or `none` when `sep` does not occur (Python then
returns a one-element list and the two-name unpacking in the source
raises `ValueError`). -/
def splitSub1 (sep : Line) : Line → Option (Line × Line)
  | [] => none
  | c :: rest =>
    if sep.isPrefixOf (c :: rest) then some ([], (c :: rest).drop sep.length)
    else (splitSub1 sep rest).map (fun p => (c :: p.1, p.2))

/-- Lowercase hexadecimal digit. -/
def hexDigit (n : Nat) : Char :=
  if n < 10 then Char.ofNat ('0'.toNat + n) else Char.ofNat ('a'.toNat + (n - 10))

/-- A JSON `\uXXXX` escape. -/
def uEsc (n : Nat) : Line :=
  ['\\', 'u', hexDigit (n / 4096 % 16), hexDigit (n / 256 % 16),
   hexDigit (n / 16 % 16), hexDigit (n % 16)]

/-- `json.dump`'s escaping of one string character with the default
`ensure_ascii=True`: quote and backslash escaped, the usual
control-character shorthands, every character outside `0x20`–`0x7e`
as `\uXXXX` (surrogate pair beyond the basic plane). -/
def jsonEscChar (c : Char) : Line :=
  if c = '"' then ['\\', '"']
  else if c = '\\' then ['\\', '\\']
  else if c = '\n' then ['\\', 'n']
  else if c = '\r' then ['\\', 'r']
  else if c = '\t' then ['\\', 't']
  else if c.toNat = 8 then ['\\', 'b']
  else if c.toNat = 12 then ['\\', 'f']
  else if 0x20 ≤ c.toNat ∧ c.toNat ≤ 0x7e then [c]
  else if c.toNat < 0x10000 then uEsc c.toNat
  else uEsc (0xd800 + (c.toNat - 0x10000) / 0x400) ++
    uEsc (0xdc00 + (c.toNat - 0x10000) % 0x400)

/-- JSON escaping of a whole string. -/
def jsonEsc (s : Line) : Line := (s.map jsonEscChar).flatten

/-- `json.dump({"id": docid, "contents": text}, out)` output with the
default separators: one object with the two keys in that order. -/
def jsonDoc (docid text : Line) : Line :=
  "\x7b\"id\": \"".data ++ jsonEsc docid ++ "\", \"contents\": \"".data ++
    jsonEsc text ++ "\"\x7d".data

/-- The part of the `_generator` loop body that reaches the channel:
```
docid, text = line.strip().split(documents.separator, 1)
json.dump({"id": docid, "contents": text}, out)
out.write("\n")
```
`split` with an empty separator raises `ValueError`, and so does the
two-name unpacking when the separator does not occur in the stripped
line. -/
def processLine (sep line : Line) : Except PyErr Line :=
  if sep = [] then .error .valueError
  else
    match splitSub1 sep (pyStrip line) with
    | some (docid, text) => .ok (jsonDoc docid text ++ ['\n'])
    | none => .error .valueError

/-- What one `_generator` run produces: the bytes written to the fifo
and the fractional values reported to the `progress` sink. -/
structure CsvOut where
  chan : Line
  fracs : List ℚ
deriving DecidableEq

/-- The `for ix, line in enumerate(fp)` loop of `_generator`: per line,
the byte counter advances by the line's length and
`progress(counter / size)` is called (Python true division —
`ZeroDivisionError` when `size = 0`, possible only for an empty source,
whose loop body never runs), then the record is split and dumped.
In Python the progress call precedes the split, so a `ValueError` on a
line is raised after that line's progress report; the `Except` result
only carries the outputs of a run that completed. -/
def csvRun (sep : Line) (size : Nat) : Nat → List Line → Except PyErr CsvOut
  | _, [] => .ok ⟨[], []⟩
  | counter, line :: rest =>
    let counter2 := counter + line.length
    if size = 0 then .error .zeroDivisionError
    else
      match processLine sep line with
      | .error e => .error e
      | .ok record =>
        match csvRun sep size counter2 rest with
        | .error e => .error e
        | .ok out => .ok ⟨record ++ out.chan, ((counter2 : ℚ) / (size : ℚ)) :: out.fracs⟩

/-- `_generator` over a source file whose lines are `lines`:
`size = os.path.getsize(documents.path)` is the total source length
(one byte per character). -/
def csvGenerator (sep : Line) (lines : List Line) : Except PyErr CsvOut :=
  csvRun sep ((lines.map List.length).sum) 0 lines

/-! ### Lemmas about the split and the producer -/

lemma splitSub1_eq_append : ∀ (sep s a b : Line), splitSub1 sep s = some (a, b) →
    s = a ++ sep ++ b := by
  intro sep s
  induction s with
  | nil => intro a b h; simp [splitSub1] at h
  | cons c rest ih =>
    intro a b h
    rw [splitSub1] at h
    by_cases hp : sep.isPrefixOf (c :: rest)
    · rw [if_pos hp] at h
      injection h with h2
      rw [Prod.mk.injEq] at h2
      obtain ⟨ha, hb⟩ := h2
      subst ha
      subst hb
      obtain ⟨t, ht⟩ := List.isPrefixOf_iff_prefix.mp hp
      simp only [List.nil_append]
      rw [← ht, List.drop_left]
    · rw [if_neg hp] at h
      cases hs : splitSub1 sep rest with
      | none => rw [hs] at h; simp at h
      | some p =>
        rw [hs] at h
        simp only [Option.map_some'] at h
        injection h with h2
        rw [Prod.mk.injEq] at h2
        obtain ⟨ha, hb⟩ := h2
        subst ha
        subst hb
        have hr := ih p.1 p.2 (by rw [hs])
        simp only [List.cons_append, List.append_assoc] at hr ⊢
        rw [← hr]

lemma splitSub1_isSome_iff (sep : Line) (hsep : sep ≠ []) :
    ∀ s : Line, (splitSub1 sep s).isSome = true ↔ sep <:+: s := by
  intro s
  induction s with
  | nil => simp [splitSub1, List.infix_nil, hsep]
  | cons c rest ih =>
    by_cases hp : sep.isPrefixOf (c :: rest)
    · rw [splitSub1, if_pos hp]
      simp only [Option.isSome_some, true_iff]
      exact (List.isPrefixOf_iff_prefix.mp hp).isInfix
    · rw [splitSub1, if_neg hp]
      rw [Option.isSome_map']
      rw [ih]
      constructor
      · exact fun h => List.infix_cons h
      · intro h
        rcases List.infix_cons_iff.mp h with hpre | hinf
        · exact absurd (List.isPrefixOf_iff_prefix.mpr hpre) hp
        · exact hinf

lemma splitSub1_single (sc : Char) (i c : Line) (h : sc ∉ i) :
    splitSub1 [sc] (i ++ sc :: c) = some (i, c) := by
  induction i with
  | nil =>
    rw [List.nil_append, splitSub1, if_pos (by simp [List.isPrefixOf])]
    simp
  | cons a i2 ih =>
    rw [List.cons_append, splitSub1, if_neg, ih (fun hm => h (List.mem_cons_of_mem a hm))]
    · simp
    · simp only [List.isPrefixOf, Bool.and_eq_true, beq_iff_eq]
      intro he
      exact h (by rw [he.1]; exact List.mem_cons_self a i2)

lemma processLine_ok (sep line a b : Line) (hsep : sep ≠ [])
    (hsplit : splitSub1 sep (pyStrip line) = some (a, b)) :
    processLine sep line = .ok (jsonDoc a b ++ ['\n']) := by
  simp [processLine, hsep, hsplit]

lemma processLine_error_no_sep (sep line : Line) (hsep : sep ≠ [])
    (hninf : ¬ sep <:+: pyStrip line) : processLine sep line = .error .valueError := by
  have hnone : splitSub1 sep (pyStrip line) = none := by
    cases hs : splitSub1 sep (pyStrip line) with
    | none => rfl
    | some p =>
      exact absurd ((splitSub1_isSome_iff sep hsep (pyStrip line)).mp (by rw [hs]; rfl))
        hninf
  simp [processLine, hsep, hnone]

lemma csvRun_error_of_mem : ∀ (lines : List Line) (sep : Line) (size counter : Nat)
    (line : Line), line ∈ lines → processLine sep line = .error .valueError →
    ∃ e, csvRun sep size counter lines = .error e := by
  intro lines
  induction lines with
  | nil => intro _ _ _ _ hmem; simp at hmem
  | cons l ls ih =>
    intro sep size counter line hmem hpl
    by_cases hsz : size = 0
    · exact ⟨.zeroDivisionError, by simp [csvRun, hsz]⟩
    · rcases List.mem_cons.mp hmem with heq | hmem2
      · subst heq
        exact ⟨.valueError, by simp [csvRun, hsz, hpl]⟩
      · cases hl : processLine sep l with
        | error e => exact ⟨e, by simp [csvRun, hsz, hl]⟩
        | ok record =>
          obtain ⟨e, he⟩ := ih sep size (counter + l.length) line hmem2 hpl
          exact ⟨e, by simp [csvRun, hsz, hl, he]⟩

/-! ### Claim C8 — three-record document stream -/

/-- C8: for a document source of three records, each a line
`id ++ separator ++ contents ++ newline` (separator character absent
from the id, fields with no surrounding whitespace so stripping only
removes the newline), the producer writes to the channel exactly three
newline-delimited JSON objects with the corresponding id/contents
pairs, in source order. -/
theorem c8_three_records (sc : Char) (i1 c1 i2 c2 i3 c3 : Line)
    (hn1 : sc ∉ i1) (hn2 : sc ∉ i2) (hn3 : sc ∉ i3)
    (hs1 : pyStrip (i1 ++ sc :: (c1 ++ ['\n'])) = i1 ++ sc :: c1)
    (hs2 : pyStrip (i2 ++ sc :: (c2 ++ ['\n'])) = i2 ++ sc :: c2)
    (hs3 : pyStrip (i3 ++ sc :: (c3 ++ ['\n'])) = i3 ++ sc :: c3) :
    (csvGenerator [sc] [i1 ++ sc :: (c1 ++ ['\n']), i2 ++ sc :: (c2 ++ ['\n']),
        i3 ++ sc :: (c3 ++ ['\n'])]).map CsvOut.chan =
      .ok (jsonDoc i1 c1 ++ '\n' ::
        (jsonDoc i2 c2 ++ '\n' :: (jsonDoc i3 c3 ++ ['\n']))) := by
  have hp1 : processLine [sc] (i1 ++ sc :: (c1 ++ ['\n'])) = .ok (jsonDoc i1 c1 ++ ['\n']) :=
    processLine_ok _ _ _ _ (by simp) (by rw [hs1]; exact splitSub1_single sc i1 c1 hn1)
  have hp2 : processLine [sc] (i2 ++ sc :: (c2 ++ ['\n'])) = .ok (jsonDoc i2 c2 ++ ['\n']) :=
    processLine_ok _ _ _ _ (by simp) (by rw [hs2]; exact splitSub1_single sc i2 c2 hn2)
  have hp3 : processLine [sc] (i3 ++ sc :: (c3 ++ ['\n'])) = .ok (jsonDoc i3 c3 ++ ['\n']) :=
    processLine_ok _ _ _ _ (by simp) (by rw [hs3]; exact splitSub1_single sc i3 c3 hn3)
  have hsz : (([i1 ++ sc :: (c1 ++ ['\n']), i2 ++ sc :: (c2 ++ ['\n']),
      i3 ++ sc :: (c3 ++ ['\n'])]).map List.length).sum ≠ 0 := by
    simp [List.length_append]
  rw [csvGenerator]
  simp only [csvRun, hsz, if_false, ite_false, hp1, hp2, hp3]
  simp [Except.map, List.append_assoc]

/-- Witness for C8: three concrete tab-separated records. -/
theorem c8_three_records_witness :
    (csvGenerator ['\t'] ["d1".data ++ '\t' :: ("AAA".data ++ ['\n']),
        "d2".data ++ '\t' :: ("BBB".data ++ ['\n']),
        "d3".data ++ '\t' :: ("CCC".data ++ ['\n'])]).map CsvOut.chan =
      .ok (jsonDoc "d1".data "AAA".data ++ '\n' ::
        (jsonDoc "d2".data "BBB".data ++ '\n' ::
          (jsonDoc "d3".data "CCC".data ++ ['\n']))) :=
  c8_three_records '\t' "d1".data "AAA".data "d2".data "BBB".data "d3".data "CCC".data
    (by decide) (by decide) (by decide) (by decide) (by decide) (by decide)

/-! ### Claim C10 — the separator is required in every line -/

/-- C10: the producer requires every stripped source line to contain the
separator: a line containing it is split into exactly two fields at the
first occurrence (the contents field keeping any further occurrences,
witnessed by the reconstruction equation) and yields one JSON record,
while a stripped line with no occurrence makes the per-line step raise
`ValueError`, and a producer run over a source containing such a line
raises instead of emitting a full stream. -/
theorem c10_separator_required :
    (∀ sep line : Line, sep ≠ [] → sep <:+: pyStrip line →
      ∃ a b, splitSub1 sep (pyStrip line) = some (a, b) ∧
        pyStrip line = a ++ sep ++ b ∧
        processLine sep line = .ok (jsonDoc a b ++ ['\n'])) ∧
    (∀ sep line : Line, sep ≠ [] → ¬ sep <:+: pyStrip line →
      processLine sep line = .error .valueError) ∧
    (∀ (sep : Line) (lines : List Line) (line : Line), sep ≠ [] → line ∈ lines →
      ¬ sep <:+: pyStrip line → ∃ e, csvGenerator sep lines = .error e) := by
  refine ⟨fun sep line hsep hinf => ?_,
          fun sep line hsep hninf => processLine_error_no_sep sep line hsep hninf,
          fun sep lines line hsep hmem hninf => ?_⟩
  · have hsome := (splitSub1_isSome_iff sep hsep (pyStrip line)).mpr hinf
    obtain ⟨p, hp⟩ := Option.isSome_iff_exists.mp hsome
    refine ⟨p.1, p.2, ?_, ?_, ?_⟩
    · rw [hp]
    · exact splitSub1_eq_append sep _ p.1 p.2 (by rw [hp])
    · exact processLine_ok sep line p.1 p.2 hsep (by rw [hp])
  · exact csvRun_error_of_mem lines sep _ 0 line hmem
      (processLine_error_no_sep sep line hsep hninf)

/-- Witness for C10: a concrete line containing the tab separator twice
splits at the first occurrence. -/
theorem c10_separator_required_witness :
    ∃ a b, splitSub1 ['\t'] (pyStrip "idA\tbody\twith tab\n".data) = some (a, b) ∧
      pyStrip "idA\tbody\twith tab\n".data = a ++ ['\t'] ++ b ∧
      processLine ['\t'] "idA\tbody\twith tab\n".data = .ok (jsonDoc a b ++ ['\n']) :=
  c10_separator_required.1 ['\t'] "idA\tbody\twith tab\n".data (by decide) (by decide)

/-! ### Claim C9 — the capability dispatcher `Handler` -/

/-- Modelled from the spec: the `UnsupportedVariant` dispatch failure,
identifying the offending type descriptor.  The `Handler` class itself
is imported from `xpmir.utils`, which is not among the sources at hand
(only its call sites in `anserini.py` are), so the dispatcher is
modelled from spec section 4.1. -/
inductive DispatchError (τ : Type) where
  | unsupportedVariant (ty : τ)
deriving DecidableEq

/-- Modelled from the spec: a dispatcher — an ordered registry mapping
type descriptors to handler closures (registration-time contents;
immutable once lookups begin). -/
structure Handler (τ V β : Type) where
  registry : List (τ × (V → β))

/-- Exact-type lookup in the registry (no inheritance-based matching). -/
def findHandler {τ V β : Type} [DecidableEq τ] :
    List (τ × (V → β)) → τ → Option (V → β)
  | [], _ => none
  | (a, g) :: rest, ty => if a = ty then some g else findHandler rest ty

/-- Modelled from the spec: `dispatch(value)` — look up the handler
registered for the value's exact concrete type and invoke it with the
value, returning its result; fail with `UnsupportedVariant` naming the
type when no handler is registered. -/
def Handler.dispatch {τ V β : Type} [DecidableEq τ] (h : Handler τ V β)
    (ty : τ) (v : V) : Except (DispatchError τ) β :=
  match findHandler h.registry ty with
  | some g => .ok (g v)
  | none => .error (.unsupportedVariant ty)

lemma findHandler_of_mem {τ V β : Type} [DecidableEq τ] :
    ∀ (reg : List (τ × (V → β))) (ty : τ) (f : V → β),
      (reg.map Prod.fst).Nodup → (ty, f) ∈ reg → findHandler reg ty = some f := by
  intro reg
  induction reg with
  | nil => intro ty f _ hmem; simp at hmem
  | cons e rest ih =>
    intro ty f hnd hmem
    obtain ⟨a, g⟩ := e
    rw [List.map_cons, List.nodup_cons] at hnd
    rcases List.mem_cons.mp hmem with heq | hmem2
    · rw [Prod.mk.injEq] at heq
      obtain ⟨h1, h2⟩ := heq
      subst h1
      subst h2
      simp [findHandler]
    · have hne : a ≠ ty := by
        intro hh
        subst hh
        exact hnd.1 (List.mem_map.mpr ⟨(a, f), hmem2, rfl⟩)
      rw [findHandler, if_neg hne]
      exact ih ty f hnd.2 hmem2

lemma findHandler_of_not_mem {τ V β : Type} [DecidableEq τ] :
    ∀ (reg : List (τ × (V → β))) (ty : τ),
      ty ∉ reg.map Prod.fst → findHandler reg ty = none := by
  intro reg
  induction reg with
  | nil => intro ty _; rfl
  | cons e rest ih =>
    intro ty hnm
    obtain ⟨a, g⟩ := e
    rw [List.map_cons] at hnm
    have hne : a ≠ ty := by
      intro hh
      subst hh
      exact hnm (List.mem_cons_self a _)
    rw [findHandler, if_neg hne]
    exact ih ty (fun hm => hnm (List.mem_cons_of_mem a hm))

/-- C9 (spec-modelled): dispatching a value whose exact type descriptor
has a registered handler invokes exactly that handler and returns its
result (under the registry invariant of at most one handler per type);
dispatching a value of an unregistered type always fails with
`UnsupportedVariant` identifying the offending type, never silently
selecting another handler. -/
theorem c9_dispatch_exact {τ V β : Type} [DecidableEq τ] :
    (∀ (h : Handler τ V β) (ty : τ) (f : V → β) (v : V),
      (h.registry.map Prod.fst).Nodup → (ty, f) ∈ h.registry →
      h.dispatch ty v = .ok (f v)) ∧
    (∀ (h : Handler τ V β) (ty : τ) (v : V),
      ty ∉ h.registry.map Prod.fst →
      h.dispatch ty v = .error (.unsupportedVariant ty)) := by
  constructor
  · intro h ty f v hnd hmem
    rw [Handler.dispatch, findHandler_of_mem h.registry ty f hnd hmem]
  · intro h ty v hnm
    rw [Handler.dispatch, findHandler_of_not_mem h.registry ty hnm]

/-- Witness for C9: with a two-entry registry over `Nat` descriptors,
dispatching a registered type runs exactly its handler, and an
unregistered type fails naming that type. -/
theorem c9_dispatch_exact_witness :
    (Handler.dispatch ⟨[(0, fun v => v + 1), (1, fun v => v * 2)]⟩ 1 10 =
      (.ok 20 : Except (DispatchError Nat) Nat)) ∧
    (Handler.dispatch ⟨[(0, fun v => v + 1), (1, fun v => v * 2)]⟩ 5 10 =
      (.error (.unsupportedVariant 5) : Except (DispatchError Nat) Nat)) :=
  ⟨c9_dispatch_exact.1 ⟨[(0, fun v => v + 1), (1, fun v => v * 2)]⟩ 1 (fun v => v * 2) 10
      (by simp) (by simp),
   c9_dispatch_exact.2 ⟨[(0, fun v => v + 1), (1, fun v => v * 2)]⟩ 5 10 (by simp)⟩
